import Mathlib

/-!
Shallow embedding of the service registry with circuit breakers from
`src/shared/serviceRegistry.js`, together with theorems checking the
natural-language specification against it.

Modelling conventions:
* JavaScript `Map` objects (`this.services`, `this.circuitBreakers`) are
  association lists `List (String × α)` with `Map.set` semantics: an update
  replaces the value in place (keeping insertion order) and an insert
  appends; `Map.delete` removes the key.  `Array.from(map.values())` is
  `List.map Prod.snd`.
* `Date.now()` timestamps and ISO date strings are `Nat` (milliseconds).
  The JS comparison `Date.now() - breaker.lastFailure > breaker.timeout`
  is rendered as `breaker.lastFailure + breaker.timeout < now`, which is
  equivalent over the integers since `timeout ≥ 0`.
* The breaker state strings `'closed' | 'open' | 'half-open'` become the
  enumeration `BreakerState`.
* The snapshot file written by `saveRegistry` is the `snapshot` field of
  `Registry`; `snapshotWrites` counts write attempts.
* `getService` either returns a service, returns `null` (no entry), or
  throws the circuit-breaker error; the three outcomes are the
  constructors of `ResolveResult`.
-/

namespace ServiceRegistry

/-- Association-list lookup with the semantics of `Map.get`. -/
def getA {α : Type} (k : String) : List (String × α) → Option α
  | [] => none
  | (k2, v) :: rest => if k2 = k then some v else getA k rest

/-- Association-list update with the semantics of `Map.set`: replace in
place when the key is present, append when absent. -/
def setA {α : Type} (k : String) (v : α) : List (String × α) → List (String × α)
  | [] => [(k, v)]
  | (k2, v2) :: rest => if k2 = k then (k, v) :: rest else (k2, v2) :: setA k v rest

/-- Association-list removal with the semantics of `Map.delete`. -/
def delA {α : Type} (k : String) : List (String × α) → List (String × α)
  | [] => []
  | (k2, v2) :: rest => if k2 = k then delA k rest else (k2, v2) :: delA k rest

/-- Number of entries stored under key `k`. -/
def countKey {α : Type} (k : String) : List (String × α) → Nat
  | [] => 0
  | (k2, _) :: rest => (if k2 = k then 1 else 0) + countKey k rest

/-- Circuit-breaker states: `'closed'`, `'open'`, `'half-open'`. -/
inductive BreakerState : Type
  | closed
  | open_
  | halfOpen
deriving DecidableEq, Repr

/-- One circuit breaker, as created by `initCircuitBreaker`. -/
structure CircuitBreaker : Type where
  state : BreakerState
  failures : Nat
  threshold : Nat
  timeout : Nat
  lastFailure : Nat
deriving DecidableEq, Repr

/-- Service metadata; only the `tags` field matters to the registry
(`metadata.tags && metadata.tags.includes(tag)`), and it may be absent. -/
structure Metadata : Type where
  tags : Option (List String)
deriving DecidableEq, Repr

/-- One registry entry, as built by `registerService`. -/
structure ServiceEntry : Type where
  name : String
  url : String
  metadata : Metadata
  status : String
  registeredAt : Nat
  lastHealthCheck : Nat
  failureCount : Nat
deriving DecidableEq, Repr

/-- The mutable state of a `ServiceRegistry` instance, together with the
content of the snapshot file it writes. -/
structure Registry : Type where
  services : List (String × ServiceEntry)
  circuitBreakers : List (String × CircuitBreaker)
  snapshot : List ServiceEntry
  snapshotWrites : Nat
deriving DecidableEq, Repr

/-- A registry as built by the constructor (before `initialize`). -/
def emptyRegistry : Registry :=
  { services := [], circuitBreakers := [], snapshot := [], snapshotWrites := 0 }

/-- Outcome of `getService`: the returned entry, `null`, or the thrown
`Circuit breaker aberto` error. -/
inductive ResolveResult : Type
  | entry (s : ServiceEntry)
  | notFound
  | circuitOpen
deriving DecidableEq, Repr

/-- `saveRegistry`: serialises `Array.from(this.services.values())` to the
registry file. -/
def saveRegistry (r : Registry) : Registry :=
  { r with snapshot := r.services.map Prod.snd, snapshotWrites := r.snapshotWrites + 1 }

/-- The breaker object created by `initCircuitBreaker`. -/
def freshBreaker : CircuitBreaker :=
  { state := .closed, failures := 0, threshold := 3, timeout := 60000, lastFailure := 0 }

/-- `initCircuitBreaker(serviceName)`. -/
def initCircuitBreaker (r : Registry) (serviceName : String) : Registry :=
  { r with circuitBreakers := setA serviceName freshBreaker r.circuitBreakers }

/-- `registerService(name, url, metadata)` at time `now`; returns the new
registry state and the created entry. -/
def registerService (r : Registry) (name url : String) (metadata : Metadata)
    (now : Nat) : Registry × ServiceEntry :=
  let service : ServiceEntry :=
    { name := name, url := url, metadata := metadata, status := "healthy",
      registeredAt := now, lastHealthCheck := now, failureCount := 0 }
  let r1 := { r with services := setA name service r.services }
  let r2 := initCircuitBreaker r1 name
  (saveRegistry r2, service)

/-- `unregisterService(name)`: returns the new state and the boolean result. -/
def unregisterService (r : Registry) (name : String) : Registry × Bool :=
  if (getA name r.services).isSome then
    let r1 := { r with services := delA name r.services,
                       circuitBreakers := delA name r.circuitBreakers }
    (saveRegistry r1, true)
  else
    (r, false)

/-- `getService(name)` at time `now`: may move an open breaker to
half-open, throw the circuit-open error, or return the entry (or `null`). -/
def getService (r : Registry) (name : String) (now : Nat) :
    Registry × ResolveResult :=
  match getA name r.services with
  | none => (r, .notFound)
  | some service =>
    match getA name r.circuitBreakers with
    | some breaker =>
      if breaker.state = .open_ then
        if breaker.lastFailure + breaker.timeout < now then
          ({ r with
              circuitBreakers := setA name ({ breaker with state := .halfOpen }) r.circuitBreakers },
           .entry service)
        else
          (r, .circuitOpen)
      else
        (r, .entry service)
    | none => (r, .entry service)

/-- `getAllServices()`. -/
def getAllServices (r : Registry) : List ServiceEntry :=
  r.services.map Prod.snd

/-- `getHealthyServices()`. -/
def getHealthyServices (r : Registry) : List ServiceEntry :=
  (r.services.map Prod.snd).filter (fun s => s.status == "healthy")

/-- The breaker update performed by `recordSuccess` on an existing breaker:
`failures = 0`, and `half-open` transitions to `closed`. -/
def successUpdate (b : CircuitBreaker) : CircuitBreaker :=
  let b1 := { b with failures := 0 }
  if b1.state = .halfOpen then { b1 with state := .closed } else b1

/-- `recordSuccess(serviceName)`. -/
def recordSuccess (r : Registry) (serviceName : String) : Registry :=
  match getA serviceName r.circuitBreakers with
  | none => r
  | some b =>
    { r with circuitBreakers := setA serviceName (successUpdate b) r.circuitBreakers }

/-- The breaker update performed by `recordFailure` on an existing breaker:
increment `failures`, stamp `lastFailure`, open when the threshold is
reached. -/
def failUpdate (b : CircuitBreaker) (now : Nat) : CircuitBreaker :=
  let b1 := { b with failures := b.failures + 1, lastFailure := now }
  if b1.threshold ≤ b1.failures then { b1 with state := .open_ } else b1

/-- `recordFailure(serviceName)` at time `now`. -/
def recordFailure (r : Registry) (serviceName : String) (now : Nat) : Registry :=
  match getA serviceName r.circuitBreakers with
  | none => r
  | some b =>
    { r with circuitBreakers := setA serviceName (failUpdate b now) r.circuitBreakers }

/-- A sequence of consecutive `recordFailure` calls at the given times. -/
def recordFailures (r : Registry) (serviceName : String) (ts : List Nat) : Registry :=
  ts.foldl (fun acc t => recordFailure acc serviceName t) r

/-- Iterated `failUpdate` on a single breaker. -/
def failUpdates (b : CircuitBreaker) (ts : List Nat) : CircuitBreaker :=
  ts.foldl failUpdate b

/-- The last element of `ts`, or `d` when `ts` is empty. -/
def lastD (ts : List Nat) (d : Nat) : Nat :=
  ts.foldl (fun _ t => t) d

/-- `initialize()`: when the registry file parses to a list of services,
each is inserted and given a fresh breaker; otherwise the registry starts
empty (unchanged). -/
def initializeRegistry (r : Registry) (registryData : Option (List ServiceEntry)) : Registry :=
  match registryData with
  | none => r
  | some services =>
    services.foldl
      (fun acc service =>
        initCircuitBreaker
          { acc with services := setA service.name service acc.services }
          service.name)
      r

/-- `findServicesByTag(tag)`. -/
def findServicesByTag (r : Registry) (tag : String) : List ServiceEntry :=
  ((r.services.map Prod.snd).filter
      (fun service =>
        match service.metadata.tags with
        | some tags => tags.contains tag
        | none => false)).filter
    (fun service => service.status == "healthy")

/-- JS `String.prototype.startsWith`, modelled on the character list so
that it reduces in the kernel. -/
def strStartsWith (s pre : String) : Bool :=
  pre.data.isPrefixOf s.data

/-- The local `services` list computed by `getServiceWithLoadBalancing`:
healthy entries whose name starts with `serviceName`. -/
def matchingServices (r : Registry) (serviceName : String) : List ServiceEntry :=
  (r.services.map Prod.snd).filter
    (fun service => strStartsWith service.name serviceName && service.status == "healthy")

/-- `getServiceWithLoadBalancing(serviceName)` at time `now`: among healthy
services whose name starts with `serviceName`, pick index
`Math.floor(Date.now() / 1000) % services.length`. -/
def getServiceWithLoadBalancing (r : Registry) (serviceName : String)
    (now : Nat) : Option ServiceEntry :=
  let services := matchingServices r serviceName
  if services.length = 0 then none
  else services[(now / 1000) % services.length]?

/-- The in-place mutation `service.status = ...` performed on a stored
entry by `performHealthCheck` (lines 146 and 153 of the source). -/
def setServiceStatus (r : Registry) (name st : String) : Registry :=
  match getA name r.services with
  | none => r
  | some s => { r with services := setA name { s with status := st } r.services }

/-- The `service` object literal built by `registerService`. -/
def registeredEntry (name url : String) (md : Metadata) (now : Nat) : ServiceEntry :=
  { name := name, url := url, metadata := md, status := "healthy",
    registeredAt := now, lastHealthCheck := now, failureCount := 0 }

/-- The 1:1 pairing property between a service table and a breaker map:
a key has an entry exactly when it has a breaker. -/
def pairedL (sv : List (String × ServiceEntry))
    (cb : List (String × CircuitBreaker)) : Prop :=
  ∀ k, (getA k sv).isSome = true ↔ (getA k cb).isSome = true

/-- The registry invariant: `services` and `circuitBreakers` are paired. -/
def paired (r : Registry) : Prop :=
  pairedL r.services r.circuitBreakers

/-! Concrete scenarios used as witnesses and counterexamples. -/

/-- Metadata carrying the single tag `items`. -/
def mdItems : Metadata := { tags := some ["items"] }

/-- One service registered at time 100 on a fresh registry. -/
def regA : Registry :=
  (registerService emptyRegistry "svc" "http://localhost:3000" mdItems 100).1

/-- The entry created by that registration. -/
def entryA : ServiceEntry :=
  (registerService emptyRegistry "svc" "http://localhost:3000" mdItems 100).2

/-- `regA` after three consecutive failures, the last at time 0: the
breaker is open with `lastFailure = 0`. -/
def rOpen0 : Registry := recordFailures regA "svc" [0, 0, 0]

/-- The breaker stored in `rOpen0`. -/
def bOpen0 : CircuitBreaker :=
  { state := .open_, failures := 3, threshold := 3, timeout := 60000,
    lastFailure := 0 }

/-- `rOpen0` after a success recorded while open (failure count zeroed,
state still open) followed by a lookup past the timeout: the breaker is
half-open with zero failures. -/
def rHalfZero : Registry :=
  (getService (recordSuccess rOpen0 "svc") "svc" 70000).1

/-- The breaker stored in `rHalfZero`. -/
def bHalf0 : CircuitBreaker :=
  { state := .halfOpen, failures := 0, threshold := 3, timeout := 60000,
    lastFailure := 0 }

/-! Association-list lemmas. -/

theorem getA_setA_self {α : Type} (k : String) (v : α) (l : List (String × α)) :
    getA k (setA k v l) = some v := by
  induction l with
  | nil => simp [getA, setA]
  | cons p rest ih =>
    by_cases h : p.1 = k
    · simp [getA, setA, h]
    · simpa [getA, setA, h] using ih

theorem getA_setA_ne {α : Type} (k k2 : String) (v : α) (l : List (String × α))
    (h : k ≠ k2) : getA k2 (setA k v l) = getA k2 l := by
  induction l with
  | nil => simp [getA, setA, h]
  | cons p rest ih =>
    rcases p with ⟨a, w⟩
    by_cases h1 : a = k
    · subst h1
      simp [getA, setA, h]
    · by_cases h2 : a = k2
      · subst h2
        simp [getA, setA, h1]
      · simp [getA, setA, h1, h2, ih]

theorem getA_delA_self {α : Type} (k : String) (l : List (String × α)) :
    getA k (delA k l) = none := by
  induction l with
  | nil => simp [getA, delA]
  | cons p rest ih =>
    by_cases h : p.1 = k
    · simpa [getA, delA, h] using ih
    · simpa [getA, delA, h] using ih

theorem getA_delA_ne {α : Type} (k k2 : String) (l : List (String × α))
    (h : k ≠ k2) : getA k2 (delA k l) = getA k2 l := by
  induction l with
  | nil => simp [getA, delA]
  | cons p rest ih =>
    rcases p with ⟨a, w⟩
    by_cases h1 : a = k
    · subst h1
      simp [getA, delA, h, ih]
    · by_cases h2 : a = k2
      · subst h2
        simp [getA, delA, h1]
      · simp [getA, delA, h1, h2, ih]

theorem setA_setA {α : Type} (k : String) (v w : α) (l : List (String × α)) :
    setA k v (setA k w l) = setA k v l := by
  induction l with
  | nil => simp [setA]
  | cons p rest ih =>
    by_cases h : p.1 = k
    · simp [setA, h]
    · simpa [setA, h] using ih

theorem countKey_setA_self {α : Type} (k : String) (v : α) (l : List (String × α))
    (h : countKey k l ≤ 1) : countKey k (setA k v l) = 1 := by
  induction l with
  | nil => simp [countKey, setA]
  | cons p rest ih =>
    rcases p with ⟨a, w⟩
    by_cases h1 : a = k
    · have hr : countKey k rest = 0 := by
        simp [countKey, h1] at h
        omega
      simp [countKey, setA, h1, hr]
    · have h2 : countKey k rest ≤ 1 := by
        simpa [countKey, h1] using h
      simp [countKey, setA, h1, ih h2]

theorem mem_map_snd_of_getA {α : Type} (k : String) (v : α) (l : List (String × α))
    (h : getA k l = some v) : v ∈ l.map Prod.snd := by
  induction l with
  | nil => simp [getA] at h
  | cons p rest ih =>
    by_cases h1 : p.1 = k
    · simp [getA, h1] at h
      simp [h]
    · simp only [getA, h1, if_neg] at h
      simp [ih h]

/-! Frame lemmas for the breaker-recording operations. -/

theorem recordFailure_services (r : Registry) (n : String) (t : Nat) :
    (recordFailure r n t).services = r.services := by
  unfold recordFailure
  cases getA n r.circuitBreakers <;> rfl

theorem recordFailure_snapshot (r : Registry) (n : String) (t : Nat) :
    (recordFailure r n t).snapshot = r.snapshot ∧
    (recordFailure r n t).snapshotWrites = r.snapshotWrites := by
  unfold recordFailure
  cases getA n r.circuitBreakers <;> exact ⟨rfl, rfl⟩

theorem recordFailure_getA_self (r : Registry) (n : String) (t : Nat)
    (b : CircuitBreaker) (h : getA n r.circuitBreakers = some b) :
    getA n (recordFailure r n t).circuitBreakers = some (failUpdate b t) := by
  unfold recordFailure
  rw [h]
  exact getA_setA_self n _ _

theorem recordSuccess_services (r : Registry) (n : String) :
    (recordSuccess r n).services = r.services := by
  unfold recordSuccess
  cases getA n r.circuitBreakers <;> rfl

theorem recordSuccess_getA_self (r : Registry) (n : String)
    (b : CircuitBreaker) (h : getA n r.circuitBreakers = some b) :
    getA n (recordSuccess r n).circuitBreakers = some (successUpdate b) := by
  unfold recordSuccess
  rw [h]
  exact getA_setA_self n _ _

theorem recordFailures_services (r : Registry) (n : String) (ts : List Nat) :
    (recordFailures r n ts).services = r.services := by
  induction ts generalizing r with
  | nil => rfl
  | cons t ts ih =>
    calc (recordFailures (recordFailure r n t) n ts).services
        = (recordFailure r n t).services := ih _
      _ = r.services := recordFailure_services r n t

theorem recordFailures_getA_self (r : Registry) (n : String) (ts : List Nat)
    (b : CircuitBreaker) (h : getA n r.circuitBreakers = some b) :
    getA n (recordFailures r n ts).circuitBreakers = some (failUpdates b ts) := by
  induction ts generalizing r b with
  | nil => exact h
  | cons t ts ih =>
    exact ih (recordFailure r n t) (failUpdate b t) (recordFailure_getA_self r n t b h)

/-! Characterisation of `getService`. -/

theorem getService_none (r : Registry) (n : String) (now : Nat)
    (h : getA n r.services = none) : getService r n now = (r, .notFound) := by
  unfold getService
  rw [h]

theorem getService_noBreaker (r : Registry) (n : String) (now : Nat)
    (s : ServiceEntry) (hs : getA n r.services = some s)
    (hb : getA n r.circuitBreakers = none) :
    getService r n now = (r, .entry s) := by
  unfold getService
  rw [hs, hb]

theorem getService_notOpen (r : Registry) (n : String) (now : Nat)
    (s : ServiceEntry) (b : CircuitBreaker)
    (hs : getA n r.services = some s) (hb : getA n r.circuitBreakers = some b)
    (hstate : b.state ≠ .open_) : getService r n now = (r, .entry s) := by
  unfold getService
  rw [hs, hb]
  simp [hstate]

theorem getService_open_within (r : Registry) (n : String) (now : Nat)
    (s : ServiceEntry) (b : CircuitBreaker)
    (hs : getA n r.services = some s) (hb : getA n r.circuitBreakers = some b)
    (hstate : b.state = .open_) (htime : now ≤ b.lastFailure + b.timeout) :
    getService r n now = (r, .circuitOpen) := by
  unfold getService
  rw [hs, hb]
  simp [hstate, Nat.not_lt.mpr htime]

theorem getService_open_elapsed (r : Registry) (n : String) (now : Nat)
    (s : ServiceEntry) (b : CircuitBreaker)
    (hs : getA n r.services = some s) (hb : getA n r.circuitBreakers = some b)
    (hstate : b.state = .open_) (htime : b.lastFailure + b.timeout < now) :
    getService r n now =
      ({ r with
          circuitBreakers := setA n ({ b with state := .halfOpen }) r.circuitBreakers },
       .entry s) := by
  unfold getService
  rw [hs, hb]
  simp [hstate, htime]

/-! Behaviour of iterated `failUpdate` on fresh breakers. -/

theorem failUpdate_eq (b : CircuitBreaker) (t : Nat) :
    failUpdate b t =
      { state := if b.threshold ≤ b.failures + 1 then .open_ else b.state,
        failures := b.failures + 1, threshold := b.threshold,
        timeout := b.timeout, lastFailure := t } := by
  unfold failUpdate
  by_cases h : b.threshold ≤ b.failures + 1
  · rw [if_pos h, if_pos h]
  · rw [if_neg h, if_neg h]

theorem failUpdates_open (ts : List Nat) (k lf : Nat) (hk : 3 ≤ k) :
    failUpdates ({ state := .open_, failures := k, threshold := 3,
                   timeout := 60000, lastFailure := lf }) ts =
      { state := .open_, failures := k + ts.length, threshold := 3,
        timeout := 60000, lastFailure := lastD ts lf } := by
  induction ts generalizing k lf with
  | nil => rfl
  | cons t ts ih =>
    have hstep : failUpdate
        ({ state := .open_, failures := k, threshold := 3,
           timeout := 60000, lastFailure := lf } : CircuitBreaker) t =
        { state := .open_, failures := k + 1, threshold := 3,
          timeout := 60000, lastFailure := t } := by
      rw [failUpdate_eq]
      rw [if_pos (show (3:Nat) ≤ k + 1 by omega)]
    show failUpdates (failUpdate _ t) ts = _
    rw [hstep, ih (k + 1) t (by omega)]
    have h4 : k + 1 + ts.length = k + (t :: ts).length := by
      simp only [List.length_cons]
      omega
    rw [h4]
    rfl

theorem failUpdates_closed (ts : List Nat) (k lf : Nat) (hk : k < 3) :
    failUpdates ({ state := .closed, failures := k, threshold := 3,
                   timeout := 60000, lastFailure := lf }) ts =
      { state := if 3 ≤ k + ts.length then .open_ else .closed,
        failures := k + ts.length, threshold := 3,
        timeout := 60000, lastFailure := lastD ts lf } := by
  induction ts generalizing k lf with
  | nil =>
    rw [if_neg (by simpa using hk)]
    rfl
  | cons t ts ih =>
    by_cases h3 : 3 ≤ k + 1
    · have hstep : failUpdate
          ({ state := .closed, failures := k, threshold := 3,
             timeout := 60000, lastFailure := lf } : CircuitBreaker) t =
          { state := .open_, failures := k + 1, threshold := 3,
            timeout := 60000, lastFailure := t } := by
        rw [failUpdate_eq, if_pos (show (3:Nat) ≤ k + 1 from h3)]
      show failUpdates (failUpdate _ t) ts = _
      rw [hstep, failUpdates_open ts (k + 1) t h3]
      have hcond : 3 ≤ k + (t :: ts).length := by
        simp only [List.length_cons]
        omega
      rw [if_pos hcond]
      have h4 : k + 1 + ts.length = k + (t :: ts).length := by
        simp only [List.length_cons]
        omega
      rw [h4]
      rfl
    · have hstep : failUpdate
          ({ state := .closed, failures := k, threshold := 3,
             timeout := 60000, lastFailure := lf } : CircuitBreaker) t =
          { state := .closed, failures := k + 1, threshold := 3,
            timeout := 60000, lastFailure := t } := by
        rw [failUpdate_eq, if_neg (show ¬ (3:Nat) ≤ k + 1 from h3)]
      show failUpdates (failUpdate _ t) ts = _
      rw [hstep, ih (k + 1) t (by omega)]
      have h4 : k + 1 + ts.length = k + (t :: ts).length := by
        simp only [List.length_cons]
        omega
      rw [h4]
      rfl

/-! Further characterisation lemmas. -/

theorem successUpdate_eq (b : CircuitBreaker) :
    successUpdate b =
      { state := if b.state = .halfOpen then .closed else b.state,
        failures := 0, threshold := b.threshold, timeout := b.timeout,
        lastFailure := b.lastFailure } := by
  unfold successUpdate
  by_cases h : b.state = .halfOpen
  · rw [if_pos h, if_pos h]
  · rw [if_neg h, if_neg h]

theorem registerService_fst (r : Registry) (name url : String) (md : Metadata)
    (now : Nat) :
    (registerService r name url md now).1 =
      { services := setA name (registeredEntry name url md now) r.services,
        circuitBreakers := setA name freshBreaker r.circuitBreakers,
        snapshot := (setA name (registeredEntry name url md now) r.services).map Prod.snd,
        snapshotWrites := r.snapshotWrites + 1 } := rfl

theorem registerService_snd (r : Registry) (name url : String) (md : Metadata)
    (now : Nat) :
    (registerService r name url md now).2 = registeredEntry name url md now := rfl

theorem mem_findServicesByTag (r : Registry) (tag : String) (s : ServiceEntry) :
    s ∈ findServicesByTag r tag ↔
      s ∈ getAllServices r
    ∧ (match s.metadata.tags with
       | some tags => tags.contains tag
       | none => false) = true
    ∧ s.status = "healthy" := by
  unfold findServicesByTag getAllServices
  rw [List.mem_filter, List.mem_filter]
  constructor
  · rintro ⟨⟨hmem, htag⟩, hst⟩
    exact ⟨hmem, htag, by simpa using hst⟩
  · rintro ⟨hmem, htag, hst⟩
    exact ⟨⟨hmem, htag⟩, by simpa using hst⟩

/-! Claim theorems. -/

/-- C4: `registerService(name, url, metadata)` upserts: afterwards the table
holds exactly one entry for `name` with status healthy, `registeredAt = now`
and `failureCount = 0`, and the breaker for `name` is the fresh closed
breaker with zero failures — regardless of any prior entry or breaker state
for that name; repeating the identical call leaves the service table, the
breaker map and the snapshot content unchanged (idempotence).  The
hypothesis states the `Map` representation invariant (at most one stored
entry per key). -/
theorem C4_register_upsert (r : Registry) (name url : String) (md : Metadata)
    (now : Nat) (hnd : countKey name r.services ≤ 1) :
    getA name (registerService r name url md now).1.services =
      some (registeredEntry name url md now)
  ∧ (registeredEntry name url md now).status = "healthy"
  ∧ (registeredEntry name url md now).registeredAt = now
  ∧ (registeredEntry name url md now).failureCount = 0
  ∧ getA name (registerService r name url md now).1.circuitBreakers = some freshBreaker
  ∧ freshBreaker.state = .closed
  ∧ freshBreaker.failures = 0
  ∧ countKey name (registerService r name url md now).1.services = 1
  ∧ (registerService (registerService r name url md now).1 name url md now).1.services =
      (registerService r name url md now).1.services
  ∧ (registerService (registerService r name url md now).1 name url md now).1.circuitBreakers =
      (registerService r name url md now).1.circuitBreakers
  ∧ (registerService (registerService r name url md now).1 name url md now).1.snapshot =
      (registerService r name url md now).1.snapshot := by
  rw [registerService_fst, registerService_fst]
  refine ⟨getA_setA_self _ _ _, rfl, rfl, rfl, getA_setA_self _ _ _, rfl, rfl,
    countKey_setA_self _ _ _ hnd, ?_, ?_, ?_⟩
  · exact setA_setA _ _ _ _
  · exact setA_setA _ _ _ _
  · exact congrArg (List.map Prod.snd) (setA_setA _ _ _ _)

/-- C4 witness: registering the same service twice on an empty registry at
time 100 yields one healthy entry, a fresh closed breaker, and identical
table, breaker map and snapshot after the repeat. -/
theorem C4_register_upsert_witness :
    getA "svc" regA.services = some (registeredEntry "svc" "http://localhost:3000" mdItems 100)
  ∧ countKey "svc" regA.services = 1
  ∧ (registerService regA "svc" "http://localhost:3000" mdItems 100).1.services =
      regA.services := by
  have h := C4_register_upsert emptyRegistry "svc" "http://localhost:3000" mdItems 100
    (by decide)
  exact ⟨h.1, h.2.2.2.2.2.2.2.1, h.2.2.2.2.2.2.2.2.1⟩

/-- C5: `unregisterService(name)` returns true exactly when an entry for
`name` existed, removing both the entry and its breaker; on an unknown name
it returns false and the registry state — table, breaker map, snapshot
content and write count — is entirely unchanged. -/
theorem C5_unregister (r : Registry) (name : String) :
    ((getA name r.services).isSome = true →
       (unregisterService r name).2 = true
     ∧ getA name (unregisterService r name).1.services = none
     ∧ getA name (unregisterService r name).1.circuitBreakers = none)
  ∧ (getA name r.services = none → unregisterService r name = (r, false)) := by
  constructor
  · intro h
    unfold unregisterService
    rw [if_pos h]
    exact ⟨rfl, getA_delA_self _ _, getA_delA_self _ _⟩
  · intro h
    unfold unregisterService
    rw [if_neg (by simp [h])]

/-- C5 witness: unregistering the registered name succeeds and clears both
maps; unregistering an unknown name returns false and leaves the state
untouched. -/
theorem C5_unregister_witness :
    ((unregisterService regA "svc").2 = true
   ∧ getA "svc" (unregisterService regA "svc").1.services = none
   ∧ getA "svc" (unregisterService regA "svc").1.circuitBreakers = none)
  ∧ unregisterService regA "missing" = (regA, false) := by
  exact ⟨(C5_unregister regA "svc").1 (by decide),
         (C5_unregister regA "missing").2 (by decide)⟩

/-- C10: for a known name, `recordSuccess` always resets the breaker's
failure count to 0, changes the state only when it is half-open (to
closed), and in particular leaves an open breaker open with zero
failures; `threshold`, `timeout` and `lastFailure` are untouched. -/
theorem C10_recordSuccess_open (r : Registry) (name : String)
    (b : CircuitBreaker) (hb : getA name r.circuitBreakers = some b) :
    getA name (recordSuccess r name).circuitBreakers =
      some ({ state := if b.state = .halfOpen then .closed else b.state,
              failures := 0, threshold := b.threshold, timeout := b.timeout,
              lastFailure := b.lastFailure })
  ∧ (b.state = .open_ →
       getA name (recordSuccess r name).circuitBreakers =
         some ({ state := .open_, failures := 0, threshold := b.threshold,
                 timeout := b.timeout, lastFailure := b.lastFailure })) := by
  have h1 := recordSuccess_getA_self r name b hb
  rw [successUpdate_eq] at h1
  refine ⟨h1, fun hopen => ?_⟩
  rw [h1, if_neg (by rw [hopen]; intro hc; cases hc)]
  rw [hopen]

/-- C10 witness: a success recorded on the open breaker of `rOpen0` zeroes
its failures but leaves it open. -/
theorem C10_recordSuccess_open_witness :
    getA "svc" (recordSuccess rOpen0 "svc").circuitBreakers =
      some ({ state := .open_, failures := 0, threshold := 3, timeout := 60000,
              lastFailure := 0 }) := by
  exact (C10_recordSuccess_open rOpen0 "svc" bOpen0 (by decide)).2 (by decide)

/-- C1 counterexample: in `rOpen0` the breaker for `svc` is open with
`lastFailure = 0` and `timeout = 60000`; at `now = 60000` we have
`now − lastFailureAt ≥ openTimeout` with exact equality, yet `getService`
still fails with the circuit-open error instead of transitioning to
half-open and returning the entry, because the source compares with a
strict `>`. -/
theorem C1_counterexample :
    (getA "svc" rOpen0.circuitBreakers).map CircuitBreaker.state =
      some BreakerState.open_
  ∧ (getA "svc" rOpen0.circuitBreakers).map CircuitBreaker.lastFailure = some 0
  ∧ (getA "svc" rOpen0.circuitBreakers).map CircuitBreaker.timeout = some 60000
  ∧ 60000 - 0 ≥ 60000
  ∧ (getService rOpen0 "svc" 60000).2 = ResolveResult.circuitOpen
  ∧ (getService rOpen0 "svc" 60000).2 ≠ ResolveResult.entry entryA := by
  decide

/-- C1 (amended): for a registered name with breaker present, `getService`
returns the entry when the breaker is closed or half-open; when the breaker
is open it fails with the circuit-open error whenever
`now − lastFailureAt ≤ openTimeout` (so also at exact equality), and it
transitions the breaker to half-open and returns the entry exactly when
`now − lastFailureAt > openTimeout` strictly; an unknown name yields
`notFound`, a result distinct from `circuitOpen`. -/
theorem C1_resolve_behaviour (r : Registry) (name : String) (now : Nat) :
    (getA name r.services = none → getService r name now = (r, .notFound))
  ∧ (∀ s b, getA name r.services = some s → getA name r.circuitBreakers = some b →
      (b.state ≠ .open_ → getService r name now = (r, .entry s))
    ∧ (b.state = .open_ → now ≤ b.lastFailure + b.timeout →
        getService r name now = (r, .circuitOpen))
    ∧ (b.state = .open_ → b.lastFailure + b.timeout < now →
        getService r name now =
          ({ r with
              circuitBreakers := setA name ({ b with state := .halfOpen }) r.circuitBreakers },
           .entry s)))
  ∧ ResolveResult.notFound ≠ ResolveResult.circuitOpen := by
  refine ⟨getService_none r name now, fun s b hs hb => ?_, by decide⟩
  exact ⟨getService_notOpen r name now s b hs hb,
         fun h1 h2 => getService_open_within r name now s b hs hb h1 h2,
         fun h1 h2 => getService_open_elapsed r name now s b hs hb h1 h2⟩

/-- C1 witness: on `rOpen0` (open breaker, `lastFailure = 0`), a lookup at
`now = 60000` — exactly the timeout — fails with the circuit-open error,
and a lookup at `now = 60001` returns the entry. -/
theorem C1_resolve_behaviour_witness :
    getService rOpen0 "svc" 60000 = (rOpen0, ResolveResult.circuitOpen)
  ∧ (getService rOpen0 "svc" 60001).2 =
      ResolveResult.entry (registeredEntry "svc" "http://localhost:3000" mdItems 100) := by
  have h := (C1_resolve_behaviour rOpen0 "svc" 60000).2.1
    (registeredEntry "svc" "http://localhost:3000" mdItems 100) bOpen0
    (by decide) (by decide)
  have h2 := (C1_resolve_behaviour rOpen0 "svc" 60001).2.1
    (registeredEntry "svc" "http://localhost:3000" mdItems 100) bOpen0
    (by decide) (by decide)
  refine ⟨h.2.1 (by decide) (by decide), ?_⟩
  rw [h2.2.2 (by decide) (by decide)]

/-- C3 counterexample: `rHalfZero` is reached purely through registry
operations (three failures open the breaker, a success while open zeroes
the count, a lookup past the timeout makes it half-open); its breaker is
half-open with zero failures, and `recordFailure` leaves it half-open
rather than transitioning it to open, since `1 < threshold`. -/
theorem C3_counterexample :
    (getA "svc" rHalfZero.circuitBreakers).map CircuitBreaker.state =
      some BreakerState.halfOpen
  ∧ (getA "svc" rHalfZero.circuitBreakers).map CircuitBreaker.failures = some 0
  ∧ (getA "svc" (recordFailure rHalfZero "svc" 70001).circuitBreakers).map
      CircuitBreaker.state = some BreakerState.halfOpen
  ∧ BreakerState.halfOpen ≠ BreakerState.open_ := by
  decide

/-- C3 (amended): for a breaker in the half-open state, `recordSuccess`
transitions it to closed with the failure count reset to 0; `recordFailure`
sets `lastFailure = now`, increments the failure count, and transitions to
open exactly when the incremented count reaches the threshold — which holds
in particular whenever the half-open state was reached with
`failures ≥ threshold`, i.e. by timeout from open with no intervening
success recorded while open. -/
theorem C3_halfOpen_transitions (r : Registry) (name : String)
    (b : CircuitBreaker) (now : Nat)
    (hb : getA name r.circuitBreakers = some b) (hs : b.state = .halfOpen) :
    getA name (recordSuccess r name).circuitBreakers =
      some ({ state := .closed, failures := 0, threshold := b.threshold,
              timeout := b.timeout, lastFailure := b.lastFailure })
  ∧ getA name (recordFailure r name now).circuitBreakers =
      some ({ state := if b.threshold ≤ b.failures + 1 then .open_ else .halfOpen,
              failures := b.failures + 1, threshold := b.threshold,
              timeout := b.timeout, lastFailure := now })
  ∧ (b.threshold ≤ b.failures →
       getA name (recordFailure r name now).circuitBreakers =
         some ({ state := .open_, failures := b.failures + 1,
                 threshold := b.threshold, timeout := b.timeout,
                 lastFailure := now })) := by
  have h1 := recordSuccess_getA_self r name b hb
  rw [successUpdate_eq, if_pos hs] at h1
  have h2 := recordFailure_getA_self r name now b hb
  rw [failUpdate_eq] at h2
  rw [hs] at h2
  refine ⟨h1, h2, fun hth => ?_⟩
  rw [h2, if_pos (Nat.le_succ_of_le hth)]

/-- C3 witness: on the half-open breaker of `rHalfZero`, a recorded success
closes it with zero failures. -/
theorem C3_halfOpen_transitions_witness :
    getA "svc" (recordSuccess rHalfZero "svc").circuitBreakers =
      some ({ state := .closed, failures := 0, threshold := 3, timeout := 60000,
              lastFailure := 0 }) := by
  exact (C3_halfOpen_transitions rHalfZero "svc" bHalf0 0 (by decide) (by decide)).1

/-- C8 counterexample: on the freshly registered breaker of `regA`
(closed, zero failures, `lastFailure = 0`), a failure recorded at time 5
is sub-threshold (`0 + 1 < 3`) and keeps the breaker closed, yet it also
changes `lastFailure` from 0 to 5 — `recordFailure` stamps `lastFailure`
unconditionally, so the claimed frame condition on `lastFailureAt` fails. -/
theorem C8_counterexample :
    getA "svc" regA.circuitBreakers = some freshBreaker
  ∧ freshBreaker.state = BreakerState.closed
  ∧ freshBreaker.failures + 1 < freshBreaker.threshold
  ∧ freshBreaker.lastFailure = 0
  ∧ getA "svc" (recordFailure regA "svc" 5).circuitBreakers =
      some ({ state := .closed, failures := 1, threshold := 3, timeout := 60000,
              lastFailure := 5 })
  ∧ (5 : Nat) ≠ 0 := by
  decide

/-- C8 (amended): a sub-threshold `recordFailure` on a closed breaker
leaves it closed, increments the failure count and also stamps
`lastFailure` with the current time; `threshold` and `timeout` are
unchanged, and the service table, snapshot content, write count and every
other breaker are untouched. -/
theorem C8_subthreshold_failure (r : Registry) (name : String)
    (b : CircuitBreaker) (now : Nat)
    (hb : getA name r.circuitBreakers = some b) (hst : b.state = .closed)
    (hlt : b.failures + 1 < b.threshold) :
    getA name (recordFailure r name now).circuitBreakers =
      some ({ state := .closed, failures := b.failures + 1,
              threshold := b.threshold, timeout := b.timeout,
              lastFailure := now })
  ∧ (recordFailure r name now).services = r.services
  ∧ (recordFailure r name now).snapshot = r.snapshot
  ∧ (recordFailure r name now).snapshotWrites = r.snapshotWrites
  ∧ (∀ other, other ≠ name →
       getA other (recordFailure r name now).circuitBreakers =
         getA other r.circuitBreakers) := by
  have h1 := recordFailure_getA_self r name now b hb
  rw [failUpdate_eq, if_neg (Nat.not_le_of_lt hlt), hst] at h1
  refine ⟨h1, recordFailure_services r name now, (recordFailure_snapshot r name now).1,
    (recordFailure_snapshot r name now).2, fun other hne => ?_⟩
  unfold recordFailure
  rw [hb]
  exact getA_setA_ne name other _ _ (fun hc => hne hc.symm)

/-- C8 witness: the sub-threshold failure on `regA` at time 5 keeps the
breaker closed with one failure and stamps `lastFailure = 5`, leaving the
service table unchanged. -/
theorem C8_subthreshold_failure_witness :
    getA "svc" (recordFailure regA "svc" 5).circuitBreakers =
      some ({ state := .closed, failures := 1, threshold := 3, timeout := 60000,
              lastFailure := 5 })
  ∧ (recordFailure regA "svc" 5).services = regA.services := by
  have h := C8_subthreshold_failure regA "svc" freshBreaker 5
    (by decide) (by decide) (by decide)
  exact ⟨h.1, h.2.1⟩

/-- C2: starting from a freshly registered (closed, zero-failure) breaker,
any run of `N < 3 = failureThreshold` consecutive `recordFailure` calls
leaves the breaker closed with `failures = N` and `getService` still
returns the registered entry at every time; after exactly 3 consecutive
failures with no intervening success the breaker is open and `getService`
fails with the circuit-open error at every time up to `openTimeout`
milliseconds after the last failure. -/
theorem C2_failure_threshold (r : Registry) (name url : String) (md : Metadata)
    (t0 : Nat) (ts : List Nat) :
    (ts.length < 3 →
       getA name (recordFailures (registerService r name url md t0).1 name ts).circuitBreakers =
         some ({ state := .closed, failures := ts.length, threshold := 3,
                 timeout := 60000, lastFailure := lastD ts 0 })
     ∧ ∀ now,
         (getService (recordFailures (registerService r name url md t0).1 name ts) name now).2 =
           .entry (registeredEntry name url md t0))
  ∧ (ts.length = 3 →
       getA name (recordFailures (registerService r name url md t0).1 name ts).circuitBreakers =
         some ({ state := .open_, failures := 3, threshold := 3,
                 timeout := 60000, lastFailure := lastD ts 0 })
     ∧ ∀ now, now ≤ lastD ts 0 + 60000 →
         (getService (recordFailures (registerService r name url md t0).1 name ts) name now).2 =
           .circuitOpen) := by
  have hbrk : getA name (registerService r name url md t0).1.circuitBreakers =
      some freshBreaker := by
    rw [registerService_fst]
    exact getA_setA_self _ _ _
  have hsvc : getA name (recordFailures (registerService r name url md t0).1 name ts).services =
      some (registeredEntry name url md t0) := by
    rw [recordFailures_services, registerService_fst]
    exact getA_setA_self _ _ _
  have hfold := recordFailures_getA_self (registerService r name url md t0).1 name ts
    freshBreaker hbrk
  have hval : failUpdates freshBreaker ts =
      { state := if 3 ≤ ts.length then .open_ else .closed,
        failures := ts.length, threshold := 3, timeout := 60000,
        lastFailure := lastD ts 0 } := by
    have h0 := failUpdates_closed ts 0 0 (by omega)
    rw [Nat.zero_add] at h0
    exact h0
  constructor
  · intro hlen
    have hb2 : getA name (recordFailures (registerService r name url md t0).1 name ts).circuitBreakers =
        some ({ state := .closed, failures := ts.length, threshold := 3,
                timeout := 60000, lastFailure := lastD ts 0 }) := by
      rw [hfold, hval, if_neg (by omega)]
    refine ⟨hb2, fun now => ?_⟩
    rw [getService_notOpen _ name now _ _ hsvc hb2 (by intro hc; cases hc)]
  · intro hlen
    have hb2 : getA name (recordFailures (registerService r name url md t0).1 name ts).circuitBreakers =
        some ({ state := .open_, failures := 3, threshold := 3,
                timeout := 60000, lastFailure := lastD ts 0 }) := by
      rw [hfold, hval, if_pos (by omega), hlen]
    refine ⟨hb2, fun now hnow => ?_⟩
    rw [getService_open_within _ name now _ _ hsvc hb2 rfl hnow]

/-- C2 witness: two failures leave the breaker closed and the entry
retrievable; a third failure at time 30 opens it and a lookup at time
60030 (on the timeout boundary) fails with the circuit-open error. -/
theorem C2_failure_threshold_witness :
    getA "svc" (recordFailures regA "svc" [10, 20]).circuitBreakers =
      some ({ state := .closed, failures := 2, threshold := 3,
              timeout := 60000, lastFailure := 20 })
  ∧ (getService (recordFailures regA "svc" [10, 20]) "svc" 99).2 =
      ResolveResult.entry (registeredEntry "svc" "http://localhost:3000" mdItems 100)
  ∧ getA "svc" (recordFailures regA "svc" [10, 20, 30]).circuitBreakers =
      some ({ state := .open_, failures := 3, threshold := 3,
              timeout := 60000, lastFailure := 30 })
  ∧ (getService (recordFailures regA "svc" [10, 20, 30]) "svc" 60030).2 =
      ResolveResult.circuitOpen := by
  have h1 := (C2_failure_threshold emptyRegistry "svc" "http://localhost:3000" mdItems 100
    [10, 20]).1 (by decide)
  have h2 := (C2_failure_threshold emptyRegistry "svc" "http://localhost:3000" mdItems 100
    [10, 20, 30]).2 (by decide)
  exact ⟨h1.1, h1.2 99, h2.1, h2.2 60030 (by decide)⟩

/-- C6: `getServiceWithLoadBalancing(prefixName)` considers exactly the
healthy entries whose name starts with the requested string; on an empty
match set it returns the not-found result `none`, otherwise it returns the
match at index `floor(now / 1000) mod count` (always some match); any
returned entry is healthy, name-matching and present in the table; and the
result is a function of the table and the second-granularity clock only —
two calls in the same second agree. -/
theorem C6_load_balancing (r : Registry) (pre : String) (now : Nat) :
    (matchingServices r pre = [] → getServiceWithLoadBalancing r pre now = none)
  ∧ (matchingServices r pre ≠ [] →
       getServiceWithLoadBalancing r pre now =
         (matchingServices r pre)[(now / 1000) % (matchingServices r pre).length]?
     ∧ ∃ s, getServiceWithLoadBalancing r pre now = some s)
  ∧ (∀ s, getServiceWithLoadBalancing r pre now = some s →
       s.status = "healthy" ∧ strStartsWith s.name pre = true ∧ s ∈ getAllServices r)
  ∧ (∀ now2, now / 1000 = now2 / 1000 →
       getServiceWithLoadBalancing r pre now = getServiceWithLoadBalancing r pre now2) := by
  refine ⟨?_, ?_, ?_, ?_⟩
  · intro h
    simp only [getServiceWithLoadBalancing]
    rw [h]
    rfl
  · intro h
    have hlen : (matchingServices r pre).length ≠ 0 :=
      fun hc => h (List.length_eq_zero.mp hc)
    have h1 : getServiceWithLoadBalancing r pre now =
        (matchingServices r pre)[(now / 1000) % (matchingServices r pre).length]? := by
      simp only [getServiceWithLoadBalancing]
      rw [if_neg hlen]
    have hidx : (now / 1000) % (matchingServices r pre).length <
        (matchingServices r pre).length :=
      Nat.mod_lt _ (Nat.pos_of_ne_zero hlen)
    refine ⟨h1, ?_⟩
    rw [h1, List.getElem?_eq_getElem hidx]
    exact ⟨_, rfl⟩
  · intro s hres
    have hs : s ∈ matchingServices r pre := by
      by_cases hm : (matchingServices r pre).length = 0
      · exfalso
        simp only [getServiceWithLoadBalancing] at hres
        rw [if_pos hm] at hres
        cases hres
      · simp only [getServiceWithLoadBalancing] at hres
        rw [if_neg hm] at hres
        obtain ⟨hlt, rfl⟩ := List.getElem?_eq_some.mp hres
        exact List.getElem_mem hlt
    unfold matchingServices at hs
    obtain ⟨hmem, hprop⟩ := List.mem_filter.mp hs
    rw [Bool.and_eq_true] at hprop
    exact ⟨eq_of_beq hprop.2, hprop.1, hmem⟩
  · intro now2 h12
    simp only [getServiceWithLoadBalancing]
    rw [h12]

/-- C6 witness: with `svc` registered and healthy, the pick within second 0
is the single match, and the pick is the same at two instants of the same
second. -/
theorem C6_load_balancing_witness :
    getServiceWithLoadBalancing regA "sv" 500 =
      some (registeredEntry "svc" "http://localhost:3000" mdItems 100)
  ∧ getServiceWithLoadBalancing regA "sv" 500 =
      getServiceWithLoadBalancing regA "sv" 999
  ∧ getServiceWithLoadBalancing regA "nope" 500 = none := by
  have h := (C6_load_balancing regA "sv" 500).2.1 (by decide)
  have hsame := (C6_load_balancing regA "sv" 500).2.2.2 999 (by decide)
  have hnone := (C6_load_balancing regA "nope" 500).1 (by decide)
  refine ⟨?_, hsame, hnone⟩
  rw [h.1]
  decide

/-- C7: `findServicesByTag(tag)` returns exactly the entries that carry the
tag in their metadata and are healthy; an unhealthy entry is excluded even
when its tag matches, while `getAllServices` still lists it — flipping a
stored entry's status to unhealthy removes it from the filtered view
without removing it from the table. -/
theorem C7_find_by_tag (r : Registry) (tag : String) :
    (∀ s, s ∈ findServicesByTag r tag ↔
       s ∈ getAllServices r
     ∧ (match s.metadata.tags with
        | some tags => tags.contains tag
        | none => false) = true
     ∧ s.status = "healthy")
  ∧ (∀ s, s ∈ getAllServices r → s.status = "unhealthy" →
       s ∉ findServicesByTag r tag)
  ∧ (∀ name s, getA name r.services = some s →
       ({ s with status := "unhealthy" }) ∉
         findServicesByTag (setServiceStatus r name "unhealthy") tag
     ∧ ({ s with status := "unhealthy" }) ∈
         getAllServices (setServiceStatus r name "unhealthy")) := by
  refine ⟨mem_findServicesByTag r tag, ?_, ?_⟩
  · intro s hmem hst hcon
    have hc := (mem_findServicesByTag r tag s).mp hcon
    rw [hst] at hc
    exact absurd hc.2.2 (by decide)
  · intro name s hget
    have hset : getA name (setServiceStatus r name "unhealthy").services =
        some ({ s with status := "unhealthy" }) := by
      unfold setServiceStatus
      rw [hget]
      exact getA_setA_self _ _ _
    have hmem := mem_map_snd_of_getA _ _ _ hset
    refine ⟨fun hcon => ?_, hmem⟩
    have hc := (mem_findServicesByTag _ tag _).mp hcon
    have hbad : ("unhealthy" : String) = "healthy" := hc.2.2
    exact absurd hbad (by decide)

/-- C7 witness: the tagged healthy entry of `regA` is in the filtered view;
after its status flips to unhealthy it disappears from the view while
remaining in the full list. -/
theorem C7_find_by_tag_witness :
    registeredEntry "svc" "http://localhost:3000" mdItems 100 ∈
      findServicesByTag regA "items"
  ∧ ({ registeredEntry "svc" "http://localhost:3000" mdItems 100 with
        status := "unhealthy" }) ∉
      findServicesByTag (setServiceStatus regA "svc" "unhealthy") "items"
  ∧ ({ registeredEntry "svc" "http://localhost:3000" mdItems 100 with
        status := "unhealthy" }) ∈
      getAllServices (setServiceStatus regA "svc" "unhealthy") := by
  have h := (C7_find_by_tag regA "items").2.2 "svc"
    (registeredEntry "svc" "http://localhost:3000" mdItems 100) (by decide)
  refine ⟨?_, h.1, h.2⟩
  exact ((C7_find_by_tag regA "items").1 _).mpr ⟨by decide, by decide, by decide⟩

/-! Preservation lemmas for the pairing invariant. -/

theorem pairedL_setA_both (sv : List (String × ServiceEntry))
    (cb : List (String × CircuitBreaker)) (n : String) (e : ServiceEntry)
    (b : CircuitBreaker) (h : pairedL sv cb) :
    pairedL (setA n e sv) (setA n b cb) := by
  intro k
  by_cases hk : k = n
  · subst hk
    rw [getA_setA_self, getA_setA_self]
    exact Iff.rfl
  · rw [getA_setA_ne n k _ _ (fun hc => hk hc.symm),
        getA_setA_ne n k _ _ (fun hc => hk hc.symm)]
    exact h k

theorem pairedL_delA_both (sv : List (String × ServiceEntry))
    (cb : List (String × CircuitBreaker)) (n : String) (h : pairedL sv cb) :
    pairedL (delA n sv) (delA n cb) := by
  intro k
  by_cases hk : k = n
  · subst hk
    rw [getA_delA_self, getA_delA_self]
    exact Iff.rfl
  · rw [getA_delA_ne n k _ (fun hc => hk hc.symm),
        getA_delA_ne n k _ (fun hc => hk hc.symm)]
    exact h k

theorem pairedL_setA_cb (sv : List (String × ServiceEntry))
    (cb : List (String × CircuitBreaker)) (n : String) (b : CircuitBreaker)
    (hex : (getA n sv).isSome = true) (h : pairedL sv cb) :
    pairedL sv (setA n b cb) := by
  intro k
  by_cases hk : k = n
  · subst hk
    rw [getA_setA_self]
    simp [hex]
  · rw [getA_setA_ne n k _ _ (fun hc => hk hc.symm)]
    exact h k

theorem pairedL_initFold (services : List ServiceEntry) (r : Registry)
    (h : paired r) :
    paired (services.foldl
      (fun acc service =>
        initCircuitBreaker
          ({ acc with services := setA service.name service acc.services })
          service.name) r) := by
  induction services generalizing r with
  | nil => exact h
  | cons s rest ih =>
    exact ih _ (pairedL_setA_both r.services r.circuitBreakers s.name s freshBreaker h)

/-- C9: every registry operation — initialisation from a parsed snapshot,
registration, unregistration, lookup, success recording and failure
recording — preserves the invariant that the service table and the breaker
map hold exactly the same names. -/
theorem C9_paired_invariant (r : Registry) (h : paired r) :
    (∀ data, paired (initializeRegistry r data))
  ∧ (∀ name url md now, paired (registerService r name url md now).1)
  ∧ (∀ name, paired (unregisterService r name).1)
  ∧ (∀ name now, paired (getService r name now).1)
  ∧ (∀ name, paired (recordSuccess r name))
  ∧ (∀ name now, paired (recordFailure r name now)) := by
  refine ⟨?_, ?_, ?_, ?_, ?_, ?_⟩
  · intro data
    cases data with
    | none => exact h
    | some services => exact pairedL_initFold services r h
  · intro name url md now
    rw [registerService_fst]
    exact pairedL_setA_both r.services r.circuitBreakers name _ freshBreaker h
  · intro name
    unfold unregisterService
    by_cases hex : (getA name r.services).isSome = true
    · rw [if_pos hex]
      exact pairedL_delA_both r.services r.circuitBreakers name h
    · rw [if_neg hex]
      exact h
  · intro name now
    cases hsv : getA name r.services with
    | none =>
      rw [getService_none r name now hsv]
      exact h
    | some s =>
      cases hcb : getA name r.circuitBreakers with
      | none =>
        rw [getService_noBreaker r name now s hsv hcb]
        exact h
      | some b =>
        by_cases hst : b.state = .open_
        · by_cases ht : b.lastFailure + b.timeout < now
          · rw [getService_open_elapsed r name now s b hsv hcb hst ht]
            refine pairedL_setA_cb r.services r.circuitBreakers name _ ?_ h
            rw [hsv]
            rfl
          · rw [getService_open_within r name now s b hsv hcb hst (Nat.le_of_not_lt ht)]
            exact h
        · rw [getService_notOpen r name now s b hsv hcb hst]
          exact h
  · intro name
    unfold recordSuccess
    cases hcb : getA name r.circuitBreakers with
    | none => exact h
    | some b =>
      refine pairedL_setA_cb r.services r.circuitBreakers name _ ?_ h
      exact (h name).mpr (by rw [hcb]; rfl)
  · intro name now
    unfold recordFailure
    cases hcb : getA name r.circuitBreakers with
    | none => exact h
    | some b =>
      refine pairedL_setA_cb r.services r.circuitBreakers name _ ?_ h
      exact (h name).mpr (by rw [hcb]; rfl)

/-- C9 witness: the empty registry is paired, and pairing survives a
registration followed by a failure recording on the result. -/
theorem C9_paired_invariant_witness :
    paired (registerService emptyRegistry "svc" "http://localhost:3000" mdItems 100).1
  ∧ paired (unregisterService regA "svc").1 := by
  have h0 : paired emptyRegistry := fun k => Iff.rfl
  have h1 := (C9_paired_invariant emptyRegistry h0).2.1 "svc" "http://localhost:3000"
    mdItems 100
  have h2 := (C9_paired_invariant regA h1).2.2.1 "svc"
  exact ⟨h1, h2⟩

end ServiceRegistry
